import Mathlib

/-!
Verification development for the polymer-build analyzer core
(`BuildAnalyzer` / `StreamLoader` in the analyzer module, plus the
path-transformer contract).  The TypeScript classes are embedded as pure
Lean functions over an explicit `BuildState`; JavaScript `Map`s become
association lists with `Map.get` / `Map.set` / `Map.delete` semantics,
promise resolution and rejection become logged events, and stream pushes
and stream errors become appended lists.
-/

set_option autoImplicit false

/-- Severity of an analyzer warning (`Severity` in polymer-analyzer). -/
inductive Severity where
  | INFO
  | WARNING
  | ERROR
deriving DecidableEq, Repr

/-- A warning accumulated during analysis: the fields the core inspects. -/
structure Warning where
  code : String
  severity : Severity
deriving DecidableEq, Repr

/-- A resolved URL, as produced by the analyzer's URL resolver.  `canLoad`
inspects `parse(url).protocol`, so we keep the parsed protocol explicit. -/
structure Url where
  protocol : String
  path : String
deriving DecidableEq, Repr

/-- A vinyl `File` as the core uses it: a filesystem path and contents. -/
structure VFile where
  path : String
  contents : String
deriving DecidableEq, Repr

/-- The errors the analyzer core can raise.  `notFound u` embeds
`new Error("Not found: " ++ u)`; `severityError n` embeds
`new Error(n ++ " error(s) occurred during build.")`; `unableToLoad`
embeds the `load` protocol failure; `outOfOrder u` embeds
`new Error("Dependency analysis incorrectly called for " ++ u)`. -/
inductive BuildError where
  | notFound (url : Url)
  | unableToLoad (url : Url)
  | severityError (count : Nat)
  | outOfOrder (url : Url)
deriving DecidableEq, Repr

/-- `DocumentDeps`: the three ordered reference lists of one analyzed
document. -/
structure DocumentDeps where
  imports : List Url
  scripts : List Url
  styles : List Url
deriving DecidableEq, Repr

/-- `Map.get`: the value stored under `k`, if any. -/
def mget {κ : Type} {α : Type} [DecidableEq κ] : List (κ × α) → κ → Option α
  | [], _ => none
  | (k', v) :: rest, k => if k' = k then some v else mget rest k

/-- `Map.set`: replace the entry for `k` in place, or append a new one. -/
def mset {κ : Type} {α : Type} [DecidableEq κ] : List (κ × α) → κ → α → List (κ × α)
  | [], k, v => [(k, v)]
  | (k', v') :: rest, k, v =>
    if k' = k then (k, v) :: rest else (k', v') :: mset rest k v

/-- `Map.delete`: drop the entry for `k` (the first one, as a `Map` holds
at most one entry per key). -/
def mdel {κ : Type} {α : Type} [DecidableEq κ] : List (κ × α) → κ → List (κ × α)
  | [], _ => []
  | (k', v) :: rest, k => if k' = k then rest else (k', v) :: mdel rest k

/-- The keys of an association list are distinct — the invariant every
JavaScript `Map` maintains. -/
def keysNodup {κ : Type} {α : Type} (m : List (κ × α)) : Prop :=
  (m.map Prod.fst).Nodup

instance {κ : Type} {α : Type} [DecidableEq κ] (m : List (κ × α)) :
    Decidable (keysNodup m) := by
  unfold keysNodup
  infer_instance

/-- The mutable state of one `BuildAnalyzer` + `StreamLoader` pair.
Promise resolutions/rejections and stream events are kept as logs so
that theorems can speak about them. -/
structure BuildState where
  /-- `BuildAnalyzer.files`: the File Store, url → contents. -/
  files : List (Url × String)
  /-- `StreamLoader.deferredFiles`: url → callback pair (a token). -/
  deferred : List (Url × Nat)
  /-- `BuildAnalyzer.sourceFilesLoaded`. -/
  sourceFilesLoaded : Bool
  /-- `BuildAnalyzer.allFragmentsToAnalyze` (a `Set`, so keys distinct). -/
  allFragmentsToAnalyze : List Url
  /-- `BuildAnalyzer.warnings` in insertion order. -/
  warnings : List Warning
  /-- `_dependencyAnalysis.depsToFragments`. -/
  depsToFragments : List (Url × List Url)
  /-- `_dependencyAnalysis.fragmentToDeps`. -/
  fragmentToDeps : List (Url × List Url)
  /-- `_dependencyAnalysis.fragmentToFullDeps`. -/
  fragmentToFullDeps : List (Url × DocumentDeps)
  /-- Paths pushed into `_dependenciesStream` (the dependency-load channel). -/
  depStreamPushes : List String
  /-- Errors emitted on `_sourcesProcessingStream`. -/
  sourceStreamErrors : List BuildError
  /-- Errors emitted on `_dependenciesProcessingStream`. -/
  depStreamErrors : List BuildError
  /-- Whether `_dependenciesStream.end()` has run. -/
  depStreamEnded : Bool
  /-- Whether `_resolveDependencyAnalysis` has run. -/
  depIndexResolved : Bool
  /-- Log of deferred-file resolutions `(url, contents)`. -/
  resolvedFutures : List (Url × String)
  /-- Log of deferred-file rejections `(url, error)`. -/
  rejectedFutures : List (Url × BuildError)
deriving DecidableEq, Repr

/-- The all-empty initial state. -/
def BuildState.init : BuildState :=
  { files := []
    deferred := []
    sourceFilesLoaded := false
    allFragmentsToAnalyze := []
    warnings := []
    depsToFragments := []
    fragmentToDeps := []
    fragmentToFullDeps := []
    depStreamPushes := []
    sourceStreamErrors := []
    depStreamErrors := []
    depStreamEnded := false
    depIndexResolved := false
    resolvedFutures := []
    rejectedFutures := [] }

/-- The configuration surface the core consults.  `resolveUrl` stands for
`analyzer.resolveUrl(urlFromPath(config.root, path))` (the resolver chain
lives outside this module); `isSource` for `config.isSource` applied to
`pathFromResolvedUrl(url)`. -/
structure Config where
  resolveUrl : String → Url
  isSource : String → Bool

/-- `StreamLoader.hasDeferredFile`. -/
def hasDeferredFile (s : BuildState) (u : Url) : Bool :=
  (mget s.deferred u).isSome

/-- `StreamLoader.resolveDeferredFile`: call the stored resolve callback
with the contents and delete the entry. -/
def resolveDeferredFile (s : BuildState) (u : Url) (contents : String) : BuildState :=
  { s with
    resolvedFutures := s.resolvedFutures ++ [(u, contents)]
    deferred := mdel s.deferred u }

/-- `StreamLoader.rejectDeferredFile`: call the stored reject callback
with the error and delete the entry. -/
def rejectDeferredFile (s : BuildState) (u : Url) (e : BuildError) : BuildState :=
  { s with
    rejectedFutures := s.rejectedFutures ++ [(u, e)]
    deferred := mdel s.deferred u }

/-- `StreamLoader.canLoad`: `parse(url).protocol === 'file:'`. -/
def canLoad (u : Url) : Bool :=
  u.protocol = "file:"

/-- `BuildAnalyzer.sourceUrlAnalyzed`: throws `Not found` once the source
stream has completed; otherwise does nothing (enumeration will deliver
the file). -/
def sourceUrlAnalyzed (s : BuildState) (u : Url) : Except BuildError BuildState :=
  if s.sourceFilesLoaded then .error (.notFound u) else .ok s

/-- `BuildAnalyzer.dependencyUrlAnalyzed`: push the path into the
dependency stream unless the File Store already has the url. -/
def dependencyUrlAnalyzed (s : BuildState) (u : Url) : BuildState :=
  if (mget s.files u).isSome then s
  else { s with depStreamPushes := s.depStreamPushes ++ [u.path] }

/-- Outcome of one `StreamLoader.load` call, from the caller's side:
content returned synchronously, a still-pending promise, or a rejected
promise. -/
inductive LoadResult where
  | immediate (contents : String)
  | pending
  | failed (e : BuildError)
deriving DecidableEq, Repr

/-- `StreamLoader.load`.  `cb` is the fresh resolve/reject callback pair
created by the promise executor.  Mirrors the source: protocol check,
File Store fast path, `deferredFiles.set`, then the source/dependency
classification with the `try`/`catch` around it. -/
def load (cfg : Config) (s : BuildState) (u : Url) (cb : Nat) :
    LoadResult × BuildState :=
  if canLoad u = false then (.failed (.unableToLoad u), s)
  else
    match mget s.files u with
    | some contents => (.immediate contents, s)
    | none =>
      let s1 := { s with deferred := mset s.deferred u cb }
      if cfg.isSource u.path then
        match sourceUrlAnalyzed s1 u with
        | .ok s2 => (.pending, s2)
        | .error e => (.failed e, rejectDeferredFile s1 u e)
      else
        (.pending, dependencyUrlAnalyzed s1 u)

/-- `BuildAnalyzer.addFile`: store the file under its resolved url
(`Map.set`, hence an overwrite when the key is present). -/
def addFile (cfg : Config) (s : BuildState) (f : VFile) : BuildState :=
  { s with files := mset s.files (cfg.resolveUrl f.path) f.contents }

/-- `BuildAnalyzer.resolveFile`: add the file to the store, then resolve a
matching deferred loader if one is waiting. -/
def resolveFile (cfg : Config) (s : BuildState) (f : VFile) : BuildState :=
  let u := cfg.resolveUrl f.path
  let s1 := addFile cfg s f
  if hasDeferredFile s1 u then resolveDeferredFile s1 u f.contents else s1

/-- `BuildAnalyzer.countWarningsByType`: a map pre-seeded with the three
severities at 0, then one increment per warning. -/
def countWarningsByType (ws : List Warning) : List (Severity × Nat) :=
  ws.foldl
    (fun m w => mset m w.severity ((mget m w.severity).getD 0 + 1))
    [(.INFO, 0), (.WARNING, 0), (.ERROR, 0)]

/-- `BuildAnalyzer.emitAnalysisError`: emit the same error on both
processing streams. -/
def emitAnalysisError (s : BuildState) (e : BuildError) : BuildState :=
  { s with
    sourceStreamErrors := s.sourceStreamErrors ++ [e]
    depStreamErrors := s.depStreamErrors ++ [e] }

/-- `BuildAnalyzer._done`.  The ERROR count is read with `Map.get(...)!`;
`getD 0` stands for the non-null assertion (the key is always present,
see `countWarningsByType_complete`).  With error-severity warnings the
error is emitted on both streams and the function returns; otherwise the
loop over `deferredFiles.keys()` rejects the first entry and returns;
otherwise the dependency stream is ended and the index promise resolved. -/
def done (s : BuildState) : BuildState :=
  let errorWarningCount := (mget (countWarningsByType s.warnings) .ERROR).getD 0
  if errorWarningCount > 0 then
    emitAnalysisError s (.severityError errorWarningCount)
  else
    match s.deferred with
    | [] =>
      { s with depStreamEnded := true, depIndexResolved := true }
    | (u, _) :: _ =>
      rejectDeferredFile s u (.notFound u)

/-- The `forEach` body of `_addDependencies`'s reverse-index update.  In
the source the callback binds its parameter with the same name `url` as
the enclosing fragment parameter, so inside the body `url` is the walked
dependency id — the fragment id is shadowed and unreachable. -/
def addDependenciesReverse (st : BuildState) (url : Url) : BuildState :=
  match mget st.depsToFragments url with
  | some entrypointList =>
    { st with depsToFragments := mset st.depsToFragments url (entrypointList ++ [url]) }
  | none =>
    { st with depsToFragments := mset st.depsToFragments url [url] }

/-- `BuildAnalyzer._addDependencies`: guard against out-of-order updates,
record the full and import-only dependency lists, then run the
reverse-index update over the import list. -/
def addDependencies (s : BuildState) (url : Url) (deps : DocumentDeps) :
    Except BuildError BuildState :=
  if url ∈ s.allFragmentsToAnalyze then
    let s1 := { s with
      fragmentToFullDeps := mset s.fragmentToFullDeps url deps
      fragmentToDeps := mset s.fragmentToDeps url deps.imports }
    .ok (deps.imports.foldl addDependenciesReverse s1)
  else .error (.outOfOrder url)

/-- The fragment branch of `BuildAnalyzer.analyzeFile`: record the
dependencies (`_addDependencies`), delete the fragment from
`allFragmentsToAnalyze`, and when that set empties call `_done`.  `deps`
stands for the result of `_getDependencies` (the external analyzer). -/
def analyzeFile (s : BuildState) (url : Url) (isFragment : Bool)
    (deps : DocumentDeps) : Except BuildError BuildState :=
  if isFragment then
    match addDependencies s url deps with
    | .error e => .error e
    | .ok s1 =>
      let s2 := { s1 with allFragmentsToAnalyze := s1.allFragmentsToAnalyze.erase url }
      .ok (if s2.allFragmentsToAnalyze.isEmpty then done s2 else s2)
  else .ok s

/-- `BuildAnalyzer.onSourcesStreamComplete`: reject every still-deferred
url classified as a source, then set `sourceFilesLoaded`. -/
def onSourcesStreamComplete (cfg : Config) (s : BuildState) : BuildState :=
  let s1 := (s.deferred.map Prod.fst).foldl
    (fun st u =>
      if cfg.isSource u.path then rejectDeferredFile st u (.notFound u) else st)
    s
  { s1 with sourceFilesLoaded := true }

/-! ## Canonical Resolver (path-transformers)

Modelled from the spec: the module `path-transformers.ts` defining
`urlFromPath` and `pathFromUrl`/`getAbsoluteFilePath` is not part of the
sources here — only its test suite is.  Per the spec's Canonical Resolver
contract, `resolve(path)` fails when the path is not contained within the
configured root, normalizes platform path-separator differences and
percent-encodes reserved characters, and `toPath` is an exact right
inverse on ids produced by `resolve`.  Paths are modelled as lists of
separator-free segments (which is what separator normalization produces),
segments as lists of characters. -/

/-- A path segment: the text between two path separators. -/
abbrev Seg : Type := List Char

/-- A filesystem path after separator normalization: its segments. -/
abbrev FsPath : Type := List Seg

/-- Modelled from the spec: percent-encoding of one character, as the test
suite pins it down for spaces (`' '` ↔ `%20`); the escape character
itself must also be escaped (`'%'` ↔ `%25`) for decoding to be exact. -/
def encodeChar (c : Char) : List Char :=
  if c = ' ' then ['%', '2', '0']
  else if c = '%' then ['%', '2', '5']
  else [c]

/-- Percent-encode a segment character by character. -/
def encodeSeg : List Char → List Char
  | [] => []
  | c :: rest => encodeChar c ++ encodeSeg rest

/-- Percent-decode a segment. -/
def decodeSeg : List Char → List Char
  | '%' :: '2' :: '0' :: rest => ' ' :: decodeSeg rest
  | '%' :: '2' :: '5' :: rest => '%' :: decodeSeg rest
  | c :: rest => c :: decodeSeg rest
  | [] => []

/-- Does `r` occur at the front of `p`? -/
def listStartsWith {α : Type} [DecidableEq α] : List α → List α → Bool
  | [], _ => true
  | _ :: _, [] => false
  | a :: as, b :: bs => if a = b then listStartsWith as bs else false

/-- A canonical identifier: the root-relative, percent-encoded segments. -/
abbrev CanonicalId : Type := List Seg

/-- Modelled from the spec: `urlFromPath(root, path)` — fails when `path`
is not contained within `root`, otherwise the percent-encoded
root-relative segments. -/
def urlFromPath (root p : FsPath) : Option CanonicalId :=
  if listStartsWith root p then some ((p.drop root.length).map encodeSeg)
  else none

/-- Modelled from the spec: `pathFromUrl(root, id)` — the absolute
filesystem path of a canonical id: the root followed by the decoded
segments. -/
def pathFromUrl (root : FsPath) (id : CanonicalId) : FsPath :=
  root ++ id.map decodeSeg

/-! ## Association-list lemmas -/

theorem mget_mset_self {κ α : Type} [DecidableEq κ] (m : List (κ × α)) (k : κ) (v : α) :
    mget (mset m k v) k = some v := by
  induction m with
  | nil => simp [mset, mget]
  | cons p rest ih =>
    obtain ⟨k', v'⟩ := p
    by_cases h : k' = k
    · simp [mset, mget, h]
    · simp [mset, mget, h, ih]

theorem mget_eq_none_of_not_mem_keys {κ α : Type} [DecidableEq κ]
    (m : List (κ × α)) (k : κ) (h : k ∉ m.map Prod.fst) : mget m k = none := by
  induction m with
  | nil => simp [mget]
  | cons p rest ih =>
    obtain ⟨k', v'⟩ := p
    simp only [List.map_cons, List.mem_cons] at h
    push_neg at h
    have hne : ¬ k' = k := fun hk => h.1 hk.symm
    simp [mget, hne, ih h.2]

theorem mem_keys_mset {κ α : Type} [DecidableEq κ]
    (m : List (κ × α)) (k k' : κ) (v : α) :
    k' ∈ (mset m k v).map Prod.fst ↔ k' ∈ m.map Prod.fst ∨ k' = k := by
  induction m with
  | nil => simp [mset]
  | cons p rest ih =>
    obtain ⟨k₀, v₀⟩ := p
    by_cases h : k₀ = k
    · subst h
      simp [mset]
      tauto
    · simp [mset, h, ih]
      tauto

theorem keysNodup_mset {κ α : Type} [DecidableEq κ]
    (m : List (κ × α)) (k : κ) (v : α) (h : keysNodup m) :
    keysNodup (mset m k v) := by
  induction m with
  | nil => simp [mset, keysNodup]
  | cons p rest ih =>
    obtain ⟨k₀, v₀⟩ := p
    unfold keysNodup at h
    simp only [List.map_cons, List.nodup_cons] at h
    by_cases hk : k₀ = k
    · subst hk
      unfold keysNodup
      simpa [mset] using h
    · unfold keysNodup
      simp only [mset, hk, if_false, List.map_cons, List.nodup_cons]
      refine ⟨?_, ih h.2⟩
      rw [mem_keys_mset]
      push_neg
      exact ⟨h.1, hk⟩

theorem mget_mdel_self {κ α : Type} [DecidableEq κ]
    (m : List (κ × α)) (k : κ) (h : keysNodup m) : mget (mdel m k) k = none := by
  induction m with
  | nil => simp [mdel, mget]
  | cons p rest ih =>
    obtain ⟨k₀, v₀⟩ := p
    unfold keysNodup at h
    simp only [List.map_cons, List.nodup_cons] at h
    by_cases hk : k₀ = k
    · subst hk
      simp only [mdel, if_pos rfl]
      exact mget_eq_none_of_not_mem_keys rest k₀ h.1
    · simp [mdel, hk, mget, ih h.2]

/-! ## Path-transformer lemmas -/

theorem decodeSeg_encodeChar (c : Char) (t : List Char) :
    decodeSeg (encodeChar c ++ t) = c :: decodeSeg t := by
  by_cases h1 : c = ' '
  · subst h1
    rfl
  · by_cases h2 : c = '%'
    · subst h2
      simp only [encodeChar, if_neg (by decide : ¬ ('%' : Char) = ' '), if_pos rfl,
        List.cons_append, List.nil_append]
      rfl
    · simp only [encodeChar, if_neg h1, if_neg h2, List.cons_append, List.nil_append]
      rw [decodeSeg.eq_def]
      split
      · rename_i rest heq
        rw [List.cons.injEq] at heq
        exact absurd heq.1 h2
      · rename_i rest heq
        rw [List.cons.injEq] at heq
        exact absurd heq.1 h2
      · rename_i c' rest heq
        rw [List.cons.injEq] at heq
        rw [heq.1, heq.2]
      · rename_i heq
        exact absurd heq (List.cons_ne_nil c t)

theorem decodeSeg_encodeSeg (s : List Char) : decodeSeg (encodeSeg s) = s := by
  induction s with
  | nil => rfl
  | cons c rest ih =>
    rw [encodeSeg, decodeSeg_encodeChar, ih]

theorem listStartsWith_append {α : Type} [DecidableEq α] (l t : List α) :
    listStartsWith l (l ++ t) = true := by
  induction l with
  | nil => rfl
  | cons a as ih => simp [listStartsWith, ih]

theorem listStartsWith_refl {α : Type} [DecidableEq α] (l : List α) :
    listStartsWith l l = true := by
  have h := listStartsWith_append l []
  simpa using h

/-! ## Warning-count lemmas -/

/-- The number of warnings of one severity. -/
def severityCount (sv : Severity) (ws : List Warning) : Nat :=
  ws.countP (fun w => decide (w.severity = sv))

theorem countWarningsByType_eq (ws : List Warning) (a b c : Nat) :
    ws.foldl
      (fun m w => mset m w.severity ((mget m w.severity).getD 0 + 1))
      [(.INFO, a), (.WARNING, b), (.ERROR, c)] =
    [(.INFO, a + severityCount .INFO ws),
     (.WARNING, b + severityCount .WARNING ws),
     (.ERROR, c + severityCount .ERROR ws)] := by
  induction ws generalizing a b c with
  | nil => simp [severityCount]
  | cons w rest ih =>
    rw [List.foldl_cons]
    cases hs : w.severity
    all_goals
      simp only [hs, mset, mget, if_pos, reduceCtorEq, if_neg, if_true, if_false,
        Option.getD_some]
    all_goals rw [ih]
    all_goals
      simp [severityCount, List.countP_cons, hs]
    all_goals omega

theorem errorCount_getD (ws : List Warning) :
    (mget (countWarningsByType ws) .ERROR).getD 0 = severityCount .ERROR ws := by
  unfold countWarningsByType
  rw [countWarningsByType_eq]
  simp [mget]

theorem severityCount_total (ws : List Warning) :
    severityCount .INFO ws + severityCount .WARNING ws + severityCount .ERROR ws
      = ws.length := by
  induction ws with
  | nil => rfl
  | cons w rest ih =>
    cases hs : w.severity <;>
      simp [severityCount, List.countP_cons, hs] at ih ⊢ <;> omega

theorem done_preserves_index (s : BuildState) :
    (done s).allFragmentsToAnalyze = s.allFragmentsToAnalyze ∧
    (done s).fragmentToFullDeps = s.fragmentToFullDeps ∧
    (done s).fragmentToDeps = s.fragmentToDeps := by
  unfold done emitAnalysisError rejectDeferredFile
  by_cases h : (mget (countWarningsByType s.warnings) .ERROR).getD 0 > 0
  · simp [h]
  · cases hd : s.deferred with
    | nil => simp [h, hd]
    | cons p rest =>
      obtain ⟨u, cb⟩ := p
      simp [h, hd]

theorem addDependenciesReverse_preserves (st : BuildState) (u : Url) :
    (addDependenciesReverse st u).allFragmentsToAnalyze = st.allFragmentsToAnalyze ∧
    (addDependenciesReverse st u).fragmentToFullDeps = st.fragmentToFullDeps ∧
    (addDependenciesReverse st u).fragmentToDeps = st.fragmentToDeps := by
  unfold addDependenciesReverse
  split <;> exact ⟨rfl, rfl, rfl⟩

theorem foldl_addDependenciesReverse_preserves (l : List Url) (st : BuildState) :
    (l.foldl addDependenciesReverse st).allFragmentsToAnalyze
        = st.allFragmentsToAnalyze ∧
    (l.foldl addDependenciesReverse st).fragmentToFullDeps
        = st.fragmentToFullDeps ∧
    (l.foldl addDependenciesReverse st).fragmentToDeps
        = st.fragmentToDeps := by
  induction l generalizing st with
  | nil => exact ⟨rfl, rfl, rfl⟩
  | cons u rest ih =>
    rw [List.foldl_cons]
    have h1 := ih (addDependenciesReverse st u)
    have h2 := addDependenciesReverse_preserves st u
    exact ⟨h1.1.trans h2.1, h1.2.1.trans h2.2.1, h1.2.2.trans h2.2.2⟩

/-! ## Claims -/

/-- C10: the severity tally built at completion always contains entries
for all three severities INFO, WARNING and ERROR, the per-severity
counts sum to the number of warnings, and in particular the completion
check's lookup of the ERROR count never dereferences a missing key. -/
theorem countWarningsByType_complete (ws : List Warning) :
    mget (countWarningsByType ws) .INFO = some (severityCount .INFO ws) ∧
    mget (countWarningsByType ws) .WARNING = some (severityCount .WARNING ws) ∧
    mget (countWarningsByType ws) .ERROR = some (severityCount .ERROR ws) ∧
    severityCount .INFO ws + severityCount .WARNING ws + severityCount .ERROR ws
      = ws.length := by
  unfold countWarningsByType
  rw [countWarningsByType_eq]
  exact ⟨by simp [mget], by simp [mget], by simp [mget], severityCount_total ws⟩

/-- C5: when the pending-fragments set has emptied and the accumulated
error-severity warning count is nonzero, `_done` emits one identical
count-carrying error on both the source and the dependency output
streams, does not end the dependency stream, and does not resolve the
DependencyIndex promise. -/
theorem done_severity_error_both_streams (s : BuildState)
    (_hfrag : s.allFragmentsToAnalyze = [])
    (herr : 0 < severityCount .ERROR s.warnings) :
    (done s).sourceStreamErrors
        = s.sourceStreamErrors
          ++ [.severityError (severityCount .ERROR s.warnings)] ∧
    (done s).depStreamErrors
        = s.depStreamErrors
          ++ [.severityError (severityCount .ERROR s.warnings)] ∧
    (done s).depIndexResolved = s.depIndexResolved ∧
    (done s).depStreamEnded = s.depStreamEnded := by
  unfold done emitAnalysisError
  rw [errorCount_getD]
  simp [herr]

/-- Witness for `done_severity_error_both_streams` at a state holding one
ERROR warning. -/
theorem done_severity_error_both_streams_witness :
    (done { BuildState.init with warnings := [⟨"c", .ERROR⟩] }).sourceStreamErrors
        = ({ BuildState.init with warnings := [⟨"c", .ERROR⟩] } : BuildState).sourceStreamErrors
          ++ [.severityError (severityCount .ERROR
                ({ BuildState.init with warnings := [⟨"c", .ERROR⟩] } : BuildState).warnings)] ∧
    (done { BuildState.init with warnings := [⟨"c", .ERROR⟩] }).depStreamErrors
        = ({ BuildState.init with warnings := [⟨"c", .ERROR⟩] } : BuildState).depStreamErrors
          ++ [.severityError (severityCount .ERROR
                ({ BuildState.init with warnings := [⟨"c", .ERROR⟩] } : BuildState).warnings)] ∧
    (done { BuildState.init with warnings := [⟨"c", .ERROR⟩] }).depIndexResolved
        = ({ BuildState.init with warnings := [⟨"c", .ERROR⟩] } : BuildState).depIndexResolved ∧
    (done { BuildState.init with warnings := [⟨"c", .ERROR⟩] }).depStreamEnded
        = ({ BuildState.init with warnings := [⟨"c", .ERROR⟩] } : BuildState).depStreamEnded :=
  done_severity_error_both_streams
    { BuildState.init with warnings := [⟨"c", .ERROR⟩] } (by decide) (by decide)

/-- C4 counterexample: `_done` on a state with no error-severity warnings
and two unresolved pending futures rejects only the first pending id and
returns; the second future is neither rejected nor removed, so not every
pending id has its future rejected with `FileNotFound`. -/
theorem done_rejects_only_first_pending :
    (done { BuildState.init with
        deferred := [(⟨"file:", "/a.html"⟩, 0), (⟨"file:", "/b.html"⟩, 1)] }).rejectedFutures
      = [(⟨"file:", "/a.html"⟩, .notFound ⟨"file:", "/a.html"⟩)] ∧
    (done { BuildState.init with
        deferred := [(⟨"file:", "/a.html"⟩, 0), (⟨"file:", "/b.html"⟩, 1)] }).deferred
      = [(⟨"file:", "/b.html"⟩, 1)] := by
  decide

/-- C4 amended: when the Completion Gate fires with no error-severity
warnings and `n > 0` pending futures, only the first pending id (in
registration order) has its future rejected, with a `FileNotFound` error
naming that id; the remaining `n - 1` futures stay registered and the
gate neither ends the dependency stream nor resolves the index. -/
theorem done_pending_rejects_first (s : BuildState) (u : Url) (cb : Nat)
    (rest : List (Url × Nat))
    (herr : severityCount .ERROR s.warnings = 0)
    (hdef : s.deferred = (u, cb) :: rest) :
    (done s).rejectedFutures = s.rejectedFutures ++ [(u, .notFound u)] ∧
    (done s).deferred = rest ∧
    (done s).depIndexResolved = s.depIndexResolved ∧
    (done s).depStreamEnded = s.depStreamEnded := by
  unfold done rejectDeferredFile
  rw [errorCount_getD, herr]
  simp [hdef, mdel]

/-- Witness for `done_pending_rejects_first` at a state with one pending
future and an empty warning set. -/
theorem done_pending_rejects_first_witness :
    (done { BuildState.init with deferred := [(⟨"file:", "/a.html"⟩, 0)] }).rejectedFutures
        = ({ BuildState.init with deferred := [(⟨"file:", "/a.html"⟩, 0)] } : BuildState).rejectedFutures
          ++ [(⟨"file:", "/a.html"⟩, .notFound ⟨"file:", "/a.html"⟩)] ∧
    (done { BuildState.init with deferred := [(⟨"file:", "/a.html"⟩, 0)] }).deferred = [] ∧
    (done { BuildState.init with deferred := [(⟨"file:", "/a.html"⟩, 0)] }).depIndexResolved
        = ({ BuildState.init with deferred := [(⟨"file:", "/a.html"⟩, 0)] } : BuildState).depIndexResolved ∧
    (done { BuildState.init with deferred := [(⟨"file:", "/a.html"⟩, 0)] }).depStreamEnded
        = ({ BuildState.init with deferred := [(⟨"file:", "/a.html"⟩, 0)] } : BuildState).depStreamEnded :=
  done_pending_rejects_first
    { BuildState.init with deferred := [(⟨"file:", "/a.html"⟩, 0)] }
    ⟨"file:", "/a.html"⟩ 0 [] (by decide) (by decide)

/-- C1: evaluating `_addDependencies` for the pending fragment
`file:///f.html` whose ReferenceSet import list is `[file:///d.html]`:
the reverse list keyed by `file:///d.html` ends up holding
`file:///d.html` itself — the `forEach` parameter shadows the fragment —
rather than the analyzed fragment's id `file:///f.html`. -/
theorem addDependencies_appends_dependency_own_id :
    addDependencies
        { BuildState.init with allFragmentsToAnalyze := [⟨"file:", "/f.html"⟩] }
        ⟨"file:", "/f.html"⟩
        ⟨[⟨"file:", "/d.html"⟩], [], []⟩
      = .ok { BuildState.init with
          allFragmentsToAnalyze := [⟨"file:", "/f.html"⟩]
          depsToFragments := [(⟨"file:", "/d.html"⟩, [⟨"file:", "/d.html"⟩])]
          fragmentToDeps := [(⟨"file:", "/f.html"⟩, [⟨"file:", "/d.html"⟩])]
          fragmentToFullDeps :=
            [(⟨"file:", "/f.html"⟩, ⟨[⟨"file:", "/d.html"⟩], [], []⟩)] } := by
  rfl

/-- C8: invoking the index-update step (the fragment branch of
`analyzeFile`, which runs `_addDependencies` and then deletes the
fragment) for a fragment not in the pending set fails with the
out-of-order error and yields no updated state, so the DependencyIndex
maps are left unchanged with the caller; a first invocation for a
pending fragment succeeds, records its dependency lists, and removes the
fragment from the pending set. -/
theorem analyzeFile_out_of_order_or_removes (s : BuildState) (url : Url)
    (deps : DocumentDeps) (hnd : s.allFragmentsToAnalyze.Nodup) :
    (url ∉ s.allFragmentsToAnalyze →
      analyzeFile s url true deps = .error (.outOfOrder url)) ∧
    (url ∈ s.allFragmentsToAnalyze →
      ∃ s1, analyzeFile s url true deps = .ok s1 ∧
        url ∉ s1.allFragmentsToAnalyze ∧
        mget s1.fragmentToFullDeps url = some deps ∧
        mget s1.fragmentToDeps url = some deps.imports) := by
  constructor
  · intro hout
    unfold analyzeFile addDependencies
    simp [hout]
  · intro hin
    unfold analyzeFile addDependencies
    simp only [hin, if_pos, if_true]
    set s1 := { s with
      fragmentToFullDeps := mset s.fragmentToFullDeps url deps
      fragmentToDeps := mset s.fragmentToDeps url deps.imports } with hs1
    have hfold := foldl_addDependenciesReverse_preserves deps.imports s1
    set s2 := deps.imports.foldl addDependenciesReverse s1 with hs2
    have hfrag2 : s2.allFragmentsToAnalyze = s.allFragmentsToAnalyze := hfold.1
    have hfull2 : s2.fragmentToFullDeps = mset s.fragmentToFullDeps url deps := hfold.2.1
    have hdeps2 : s2.fragmentToDeps = mset s.fragmentToDeps url deps.imports := hfold.2.2
    set s3 := { s2 with allFragmentsToAnalyze := s2.allFragmentsToAnalyze.erase url } with hs3
    have hnotmem : url ∉ s3.allFragmentsToAnalyze := by
      rw [hs3]
      simp only [hfrag2]
      exact hnd.not_mem_erase
    refine ⟨if s3.allFragmentsToAnalyze.isEmpty then done s3 else s3, ?_, ?_, ?_, ?_⟩
    · simp
    · by_cases hemp : s3.allFragmentsToAnalyze.isEmpty
      · simpa [hemp, (done_preserves_index s3).1] using hnotmem
      · simpa [hemp] using hnotmem
    · have hfull3 :
          (if s3.allFragmentsToAnalyze.isEmpty then done s3 else s3).fragmentToFullDeps
            = mset s.fragmentToFullDeps url deps := by
        by_cases hemp : s3.allFragmentsToAnalyze.isEmpty
        · rw [if_pos hemp, (done_preserves_index s3).2.1]
          exact hfull2
        · rw [if_neg hemp]
          exact hfull2
      rw [hfull3]
      exact mget_mset_self _ _ _
    · have hdeps3 :
          (if s3.allFragmentsToAnalyze.isEmpty then done s3 else s3).fragmentToDeps
            = mset s.fragmentToDeps url deps.imports := by
        by_cases hemp : s3.allFragmentsToAnalyze.isEmpty
        · rw [if_pos hemp, (done_preserves_index s3).2.2]
          exact hdeps2
        · rw [if_neg hemp]
          exact hdeps2
      rw [hdeps3]
      exact mget_mset_self _ _ _

/-- Witness for `analyzeFile_out_of_order_or_removes`: the out-of-order
branch at a non-pending fragment and the success branch at the single
pending fragment. -/
theorem analyzeFile_out_of_order_or_removes_witness :
    analyzeFile { BuildState.init with allFragmentsToAnalyze := [⟨"file:", "/f.html"⟩] }
        ⟨"file:", "/g.html"⟩ true ⟨[⟨"file:", "/d.html"⟩], [], []⟩
      = .error (.outOfOrder ⟨"file:", "/g.html"⟩) ∧
    (∃ s1,
      analyzeFile { BuildState.init with allFragmentsToAnalyze := [⟨"file:", "/f.html"⟩] }
          ⟨"file:", "/f.html"⟩ true ⟨[⟨"file:", "/d.html"⟩], [], []⟩ = .ok s1 ∧
      (⟨"file:", "/f.html"⟩ : Url) ∉ s1.allFragmentsToAnalyze ∧
      mget s1.fragmentToFullDeps ⟨"file:", "/f.html"⟩
        = some ⟨[⟨"file:", "/d.html"⟩], [], []⟩ ∧
      mget s1.fragmentToDeps ⟨"file:", "/f.html"⟩ = some [⟨"file:", "/d.html"⟩]) :=
  ⟨(analyzeFile_out_of_order_or_removes
      { BuildState.init with allFragmentsToAnalyze := [⟨"file:", "/f.html"⟩] }
      ⟨"file:", "/g.html"⟩ ⟨[⟨"file:", "/d.html"⟩], [], []⟩ (by decide)).1 (by decide),
   (analyzeFile_out_of_order_or_removes
      { BuildState.init with allFragmentsToAnalyze := [⟨"file:", "/f.html"⟩] }
      ⟨"file:", "/f.html"⟩ ⟨[⟨"file:", "/d.html"⟩], [], []⟩ (by decide)).2 (by decide)⟩

/-- C2 counterexample: a second content request for the unloaded id
`file:///d.js`, issued while a pending future for it is already
registered, does not fail with any error: the load stays pending and the
new callback pair silently replaces the old registration. -/
theorem load_duplicate_request_not_error :
    (load ⟨fun p => ⟨"file:", p⟩, fun _ => false⟩
        { BuildState.init with
          deferred := [(⟨"file:", "/d.js"⟩, 0)]
          depStreamPushes := ["/d.js"] }
        ⟨"file:", "/d.js"⟩ 1).fst = .pending ∧
    (load ⟨fun p => ⟨"file:", p⟩, fun _ => false⟩
        { BuildState.init with
          deferred := [(⟨"file:", "/d.js"⟩, 0)]
          depStreamPushes := ["/d.js"] }
        ⟨"file:", "/d.js"⟩ 1).snd.deferred = [(⟨"file:", "/d.js"⟩, 1)] := by
  decide

/-- C2 amended: a content request for an id not in the File Store while a
pending future for the same id already exists is not an error: the new
callback pair replaces the existing registration in place (so the table
still holds at most one callback pair per id) and the request stays
pending. -/
theorem load_duplicate_replaces_registration (cfg : Config) (s : BuildState)
    (u : Url) (cb cb0 : Nat)
    (hcan : canLoad u = true)
    (hmiss : mget s.files u = none)
    (_hpend : mget s.deferred u = some cb0)
    (hclass : cfg.isSource u.path = false ∨ s.sourceFilesLoaded = false)
    (hkeys : keysNodup s.deferred) :
    (load cfg s u cb).fst = .pending ∧
    mget (load cfg s u cb).snd.deferred u = some cb ∧
    keysNodup (load cfg s u cb).snd.deferred := by
  by_cases hsrc : cfg.isSource u.path
  · have hsf : s.sourceFilesLoaded = false := by
      rcases hclass with h | h
      · rw [hsrc] at h
        exact absurd h (by simp)
      · exact h
    simp [load, hcan, hmiss, hsrc, sourceUrlAnalyzed, hsf,
      mget_mset_self, keysNodup_mset _ _ _ hkeys]
  · simp [load, hcan, hmiss, hsrc, dependencyUrlAnalyzed,
      mget_mset_self, keysNodup_mset _ _ _ hkeys]

/-- Witness for `load_duplicate_replaces_registration`: the concrete
duplicate request of the counterexample, seen through the amended
statement. -/
theorem load_duplicate_replaces_registration_witness :
    (load ⟨fun p => ⟨"file:", p⟩, fun _ => false⟩
        { BuildState.init with deferred := [(⟨"file:", "/d.js"⟩, 0)] }
        ⟨"file:", "/d.js"⟩ 1).fst = .pending ∧
    mget (load ⟨fun p => ⟨"file:", p⟩, fun _ => false⟩
        { BuildState.init with deferred := [(⟨"file:", "/d.js"⟩, 0)] }
        ⟨"file:", "/d.js"⟩ 1).snd.deferred ⟨"file:", "/d.js"⟩ = some 1 ∧
    keysNodup (load ⟨fun p => ⟨"file:", p⟩, fun _ => false⟩
        { BuildState.init with deferred := [(⟨"file:", "/d.js"⟩, 0)] }
        ⟨"file:", "/d.js"⟩ 1).snd.deferred :=
  load_duplicate_replaces_registration
    ⟨fun p => ⟨"file:", p⟩, fun _ => false⟩
    { BuildState.init with deferred := [(⟨"file:", "/d.js"⟩, 0)] }
    ⟨"file:", "/d.js"⟩ 1 0 (by decide) (by decide) (by decide) (by decide) (by decide)

/-- C3 counterexample: two files with the same path but different
contents arriving through the resolve stage: the second arrival
overwrites the stored content, so a second load attempt for the same id
is an overwrite, not a no-op. -/
theorem resolveFile_second_arrival_overwrites :
    mget (resolveFile ⟨fun p => ⟨"file:", p⟩, fun _ => true⟩
          (resolveFile ⟨fun p => ⟨"file:", p⟩, fun _ => true⟩ BuildState.init
            ⟨"/a.html", "one"⟩)
          ⟨"/a.html", "two"⟩).files
        ⟨"file:", "/a.html"⟩ = some "two" ∧
    mget (resolveFile ⟨fun p => ⟨"file:", p⟩, fun _ => true⟩
          (resolveFile ⟨fun p => ⟨"file:", p⟩, fun _ => true⟩ BuildState.init
            ⟨"/a.html", "one"⟩)
          ⟨"/a.html", "two"⟩).files
        ⟨"file:", "/a.html"⟩ ≠ some "one" := by
  decide

/-- C3 amended: the File Store keeps at most one entry per CanonicalId,
but a second arrival of the same id through the resolve stage replaces
the stored content with the newly arrived file (last writer wins) rather
than leaving it unchanged. -/
theorem resolveFile_overwrites_keeping_unique (cfg : Config) (s : BuildState)
    (f : VFile) (hkeys : keysNodup s.files) :
    (resolveFile cfg s f).files
        = mset s.files (cfg.resolveUrl f.path) f.contents ∧
    mget (resolveFile cfg s f).files (cfg.resolveUrl f.path) = some f.contents ∧
    keysNodup (resolveFile cfg s f).files := by
  unfold resolveFile addFile resolveDeferredFile hasDeferredFile
  by_cases hd : (mget s.deferred (cfg.resolveUrl f.path)).isSome
  · simp [hd, mget_mset_self, keysNodup_mset _ _ _ hkeys]
  · simp [hd, mget_mset_self, keysNodup_mset _ _ _ hkeys]

/-- Witness for `resolveFile_overwrites_keeping_unique` at a store that
already holds different content for the arriving file's id. -/
theorem resolveFile_overwrites_keeping_unique_witness :
    (resolveFile ⟨fun p => ⟨"file:", p⟩, fun _ => true⟩
        { BuildState.init with files := [(⟨"file:", "/a.html"⟩, "one")] }
        ⟨"/a.html", "two"⟩).files
      = mset ({ BuildState.init with
          files := [(⟨"file:", "/a.html"⟩, "one")] } : BuildState).files
          (Url.mk "file:" "/a.html") "two" ∧
    mget (resolveFile ⟨fun p => ⟨"file:", p⟩, fun _ => true⟩
        { BuildState.init with files := [(⟨"file:", "/a.html"⟩, "one")] }
        ⟨"/a.html", "two"⟩).files (Url.mk "file:" "/a.html") = some "two" ∧
    keysNodup (resolveFile ⟨fun p => ⟨"file:", p⟩, fun _ => true⟩
        { BuildState.init with files := [(⟨"file:", "/a.html"⟩, "one")] }
        ⟨"/a.html", "two"⟩).files :=
  resolveFile_overwrites_keeping_unique
    ⟨fun p => ⟨"file:", p⟩, fun _ => true⟩
    { BuildState.init with files := [(⟨"file:", "/a.html"⟩, "one")] }
    ⟨"/a.html", "two"⟩ (by decide)

/-- C6: a content request for a declared-source id arriving after the
source stream has completed, with the id absent from the File Store,
fails immediately with the not-found error naming that id: the rejection
is logged for that id and no pending future for it remains registered. -/
theorem load_source_after_complete_fails (cfg : Config) (s : BuildState)
    (u : Url) (cb : Nat)
    (hcan : canLoad u = true)
    (hmiss : mget s.files u = none)
    (hsrc : cfg.isSource u.path = true)
    (hloaded : s.sourceFilesLoaded = true)
    (hkeys : keysNodup s.deferred) :
    (load cfg s u cb).fst = .failed (.notFound u) ∧
    mget (load cfg s u cb).snd.deferred u = none ∧
    (u, .notFound u) ∈ (load cfg s u cb).snd.rejectedFutures := by
  have hkeys2 : keysNodup (mset s.deferred u cb) := keysNodup_mset _ _ _ hkeys
  simp [load, hcan, hmiss, hsrc, sourceUrlAnalyzed, hloaded, rejectDeferredFile,
    mget_mdel_self _ _ hkeys2]

/-- Witness for `load_source_after_complete_fails`: a declared source
requested for the first time after enumeration already finished. -/
theorem load_source_after_complete_fails_witness :
    (load ⟨fun p => ⟨"file:", p⟩, fun _ => true⟩
        { BuildState.init with sourceFilesLoaded := true }
        ⟨"file:", "/s.html"⟩ 0).fst = .failed (.notFound ⟨"file:", "/s.html"⟩) ∧
    mget (load ⟨fun p => ⟨"file:", p⟩, fun _ => true⟩
        { BuildState.init with sourceFilesLoaded := true }
        ⟨"file:", "/s.html"⟩ 0).snd.deferred ⟨"file:", "/s.html"⟩ = none ∧
    (⟨"file:", "/s.html"⟩, BuildError.notFound ⟨"file:", "/s.html"⟩)
      ∈ (load ⟨fun p => ⟨"file:", p⟩, fun _ => true⟩
          { BuildState.init with sourceFilesLoaded := true }
          ⟨"file:", "/s.html"⟩ 0).snd.rejectedFutures :=
  load_source_after_complete_fails
    ⟨fun p => ⟨"file:", p⟩, fun _ => true⟩
    { BuildState.init with sourceFilesLoaded := true }
    ⟨"file:", "/s.html"⟩ 0 (by decide) (by decide) (by decide) (by decide) (by decide)

/-- C7 counterexample: two requests for the unloaded dependency id
`file:///d.js`, the second issued while the first is still pending and
the id is not yet in the File Store: the id's path is pushed into the
dependency-load channel twice, so more than one actual load is
triggered. -/
theorem load_pending_second_request_pushes_again :
    (load ⟨fun p => ⟨"file:", p⟩, fun _ => false⟩
        (load ⟨fun p => ⟨"file:", p⟩, fun _ => false⟩ BuildState.init
            ⟨"file:", "/d.js"⟩ 0).snd
        ⟨"file:", "/d.js"⟩ 1).snd.depStreamPushes = ["/d.js", "/d.js"] ∧
    (load ⟨fun p => ⟨"file:", p⟩, fun _ => false⟩
        (load ⟨fun p => ⟨"file:", p⟩, fun _ => false⟩ BuildState.init
            ⟨"file:", "/d.js"⟩ 0).snd
        ⟨"file:", "/d.js"⟩ 1).snd.depStreamPushes.count "/d.js" = 2 := by
  decide

/-- C7 amended: the File Store membership check prevents a duplicate push
only once the id's content has been stored: a repeat request for an id
already in the File Store returns the content immediately and leaves the
state — in particular the dependency-load channel — untouched.  While
the first load is still pending, the check does not fire and a repeated
request pushes the id a second time. -/
theorem load_in_store_no_second_push (cfg : Config) (s : BuildState) (u : Url)
    (cb : Nat) (contents : String)
    (hcan : canLoad u = true)
    (hfile : mget s.files u = some contents) :
    load cfg s u cb = (.immediate contents, s) := by
  simp [load, hcan, hfile]

/-- Witness for `load_in_store_no_second_push`: a repeat request for an
id whose load has completed. -/
theorem load_in_store_no_second_push_witness :
    load ⟨fun p => ⟨"file:", p⟩, fun _ => false⟩
        { BuildState.init with
          files := [(⟨"file:", "/d.js"⟩, "body")]
          depStreamPushes := ["/d.js"] }
        ⟨"file:", "/d.js"⟩ 1
      = (.immediate "body",
         { BuildState.init with
           files := [(⟨"file:", "/d.js"⟩, "body")]
           depStreamPushes := ["/d.js"] }) :=
  load_in_store_no_second_push
    ⟨fun p => ⟨"file:", p⟩, fun _ => false⟩
    { BuildState.init with
      files := [(⟨"file:", "/d.js"⟩, "body")]
      depStreamPushes := ["/d.js"] }
    ⟨"file:", "/d.js"⟩ 1 "body" (by decide) (by decide)

/-- C9: for every CanonicalId produced by `urlFromPath` from a path
inside the root, `pathFromUrl` is an exact right inverse: resolving the
path it returns yields the same id again, with percent-encoding
round-tripping exactly; and `urlFromPath` fails whenever the given path
is not contained within the configured root. -/
theorem urlFromPath_pathFromUrl_roundTrip :
    (∀ (root p : FsPath) (cid : CanonicalId),
        urlFromPath root p = some cid →
        urlFromPath root (pathFromUrl root cid) = some cid) ∧
    (∀ (root p : FsPath),
        listStartsWith root p = false → urlFromPath root p = none) := by
  constructor
  · intro root p cid h
    unfold urlFromPath at h
    by_cases hpre : listStartsWith root p = true
    · rw [if_pos hpre] at h
      have hcid : (p.drop root.length).map encodeSeg = cid := Option.some.inj h
      have hdec : cid.map decodeSeg = p.drop root.length := by
        rw [← hcid, List.map_map]
        simp [Function.comp_def, decodeSeg_encodeSeg]
      unfold pathFromUrl urlFromPath
      rw [hdec, if_pos (listStartsWith_append root (p.drop root.length)),
        List.drop_left]
      exact congrArg some hcid
    · rw [if_neg hpre] at h
      exact absurd h (by simp)
  · intro root p h
    simp [urlFromPath, h]

/-- Witness for `urlFromPath_pathFromUrl_roundTrip`: root `r` with the
contained path `r / "a "` (a segment holding a space, canonicalized to
`a%20`), and a failing resolve for a path outside the root. -/
theorem urlFromPath_pathFromUrl_roundTrip_witness :
    urlFromPath [['r']] (pathFromUrl [['r']] [['a', '%', '2', '0']])
      = some [['a', '%', '2', '0']] ∧
    urlFromPath [['q']] [['r'], ['a']] = none :=
  ⟨urlFromPath_pathFromUrl_roundTrip.1 [['r']] [['r'], ['a', ' ']]
      [['a', '%', '2', '0']] (by decide),
   urlFromPath_pathFromUrl_roundTrip.2 [['q']] [['r'], ['a']] (by decide)⟩
